import Mathlib

/-!
Shallow embedding of the stream-reconciliation engine implemented in
src/hooks/use-graph/useGraph.tsx of the open-canvas repository.

JavaScript strings are modelled as Lean String (with List Char views where
convenient), JavaScript truthiness of optional strings as jsTruthyOpt, and
the React state setters as explicit state passing through per-branch fold
states. Helper functions imported from modules that are not part of the
sources (./hooks/use-graph/utils, @/lib/normalize_string) are modelled from
the specification and carry a doc comment saying so; everything else is a
direct translation of the cited source lines.
-/

/-- Truthiness of an optional JavaScript string: undefined (none) and the
empty string are falsy, every other string is truthy. -/
def jsTruthyOpt : Option String → Bool
  | none => false
  | some s => !s.isEmpty

/-- Concatenation of a list of delta strings, in arrival order. -/
def strConcat : List String → String
  | [] => ""
  | d :: ds => d ++ strConcat ds

/-- Character class of the JavaScript regex fragment [\w-]: ASCII letters,
digits, underscore and hyphen. -/
def isWordDashChar (c : Char) : Bool :=
  c.isAlphanum || c == '_' || c == '-'

/-- Whitespace recognized by the JavaScript String.prototype.trim on the
ASCII range (the engine only ever trims ASCII text here). -/
def isJsSpaceChar (c : Char) : Bool :=
  c == ' ' || c == '\t' || c == '\n' || c == '\r' || c == '\x0b' || c == '\x0c'

/-- JavaScript String.prototype.trim over a character list. -/
def jsTrimList (l : List Char) : List Char :=
  ((l.dropWhile isJsSpaceChar).reverse.dropWhile isJsSpaceChar).reverse

/-- JavaScript String.prototype.trim. -/
def jsTrim (s : String) : String :=
  String.mk (jsTrimList s.data)

/-- First position at which needle occurs as a prefix of a suffix of the
haystack, if any: the search underlying JavaScript String.prototype.indexOf. -/
def firstMatchPos (needle : List Char) : List Char → Option Nat
  | [] => if needle.isPrefixOf ([] : List Char) then some 0 else none
  | c :: rest =>
      if needle.isPrefixOf (c :: rest) then some 0
      else (firstMatchPos needle rest).map (· + 1)

/-- JavaScript String.prototype.indexOf: first occurrence or -1. -/
def jsIndexOf (hay needle : String) : Int :=
  match firstMatchPos needle.data hay.data with
  | some n => (n : Int)
  | none => -1

/-- JavaScript String.prototype.slice with two (possibly negative)
arguments, over a character list. -/
def jsSliceList (l : List Char) (a b : Int) : List Char :=
  let n : Int := (l.length : Int)
  let s := if a < 0 then max (n + a) 0 else min a n
  let e := if b < 0 then max (n + b) 0 else min b n
  (l.take e.toNat).drop s.toNat

/-- JavaScript String.prototype.slice with two arguments. -/
def jsSlice (s : String) (a b : Int) : String :=
  String.mk (jsSliceList s.data a b)

/-- JavaScript String.prototype.slice with one argument. -/
def jsSliceFrom (s : String) (a : Int) : String :=
  jsSlice s a (s.length : Int)

/-- Code variant of a content snapshot (ArtifactCodeV3 in @/types, data
model of section 3 of the specification). -/
structure ArtifactCodeV3 where
  index : Nat
  title : String
  language : String
  code : String
deriving DecidableEq

/-- Text variant of a content snapshot (ArtifactMarkdownV3 in @/types). -/
structure ArtifactMarkdownV3 where
  index : Nat
  title : String
  fullMarkdown : String
deriving DecidableEq

/-- A content snapshot: either the code variant or the text variant. -/
inductive ArtifactContentV3
  | code (c : ArtifactCodeV3)
  | markdown (m : ArtifactMarkdownV3)
deriving DecidableEq

/-- Index of a snapshot. -/
def ArtifactContentV3.index : ArtifactContentV3 → Nat
  | .code c => c.index
  | .markdown m => m.index

/-- Title of a snapshot. -/
def ArtifactContentV3.title : ArtifactContentV3 → String
  | .code c => c.title
  | .markdown m => m.title

/-- Code text of a snapshot when it is the code variant. -/
def ArtifactContentV3.codeText : ArtifactContentV3 → Option String
  | .code c => some c.code
  | .markdown _ => none

/-- Type guard isArtifactCodeContent from @/lib/artifact_content_types.
Modelled from the spec: the module is not among the sources; it tests for
the code variant. -/
def isArtifactCodeContent : ArtifactContentV3 → Bool
  | .code _ => true
  | .markdown _ => false

/-- Type guard isArtifactMarkdownContent from @/lib/artifact_content_types.
Modelled from the spec: the module is not among the sources; it tests for
the text variant. -/
def isArtifactMarkdownContent : ArtifactContentV3 → Bool
  | .markdown _ => true
  | .code _ => false

/-- The versioned artifact document (ArtifactV3 in @/types). -/
structure ArtifactV3 where
  currentIndex : Nat
  contents : List ArtifactContentV3
deriving DecidableEq

/-- Highlight descriptor for text spans (TextHighlight in @/types). -/
structure TextHighlight where
  fullMarkdown : String
  markdownBlock : String
deriving DecidableEq

/-- Highlight descriptor for code spans (Highlight in @/types); character
offsets into the previous code snapshot. -/
structure Highlight where
  startCharIndex : Nat
  endCharIndex : Nat
deriving DecidableEq

/-- Lines 53-68: match of the regex described on line 56 against the whole
string, returning the captured group. The regex anchors a leading fence
line of three backticks plus an optional [\w-]* language tag, and a
trailing fence line at the very end of the string; the greedy language tag
and the end anchor make the decomposition unique when it exists. -/
def codeBlockMatch (l : List Char) : Option (List Char) :=
  if ['`', '`', '`'].isPrefixOf l then
    let rest := (l.drop 3).dropWhile isWordDashChar
    if rest.head? == some '\n' then
      let body := rest.tail
      if ['\n', '`', '`', '`'].isSuffixOf body then
        some (body.take (body.length - 4))
      else none
    else none
  else none

/-- Lines 53-68 of useGraph.tsx: strip an enclosing fenced code block
wrapper spanning the whole string, trimming the inner content; return the
input unchanged when the pattern does not match or the input is empty. -/
def removeCodeBlockFormatting (text : String) : String :=
  if text.isEmpty then text
  else
    match codeBlockMatch text.data with
    | some inner => String.mk (jsTrimList inner)
    | none => text

/-- Wrapping code text in a fenced code block spanning the whole string,
as described by the round-trip property of section 8 of the specification. -/
def wrapCodeBlock (lang code : String) : String :=
  "```" ++ lang ++ "\n" ++ code ++ "\n```"

/-- Transient span-patcher state: the unchanged text before and after the
in-flight edit (updatedArtifactStartContent and updatedArtifactRestContent,
lines 148-152), both undefined until the first chunk. -/
structure SpanState where
  updatedArtifactStartContent : Option String
  updatedArtifactRestContent : Option String
deriving DecidableEq

/-- Lines 269-295 (updateHighlightedText branch, span part): locate the
first occurrence of the highlighted block, initialize prefix and suffix on
the first chunk, then append the delta to the prefix; the append also runs
on the first chunk, right after initialization. -/
def mdSpanStep (highlighted : TextHighlight) (st : SpanState) (deltaContent : String) : SpanState :=
  let startIndexOfHighlightedText : Int :=
    jsIndexOf highlighted.fullMarkdown highlighted.markdownBlock
  let st1 : SpanState :=
    match st.updatedArtifactStartContent, st.updatedArtifactRestContent with
    | none, none =>
        { updatedArtifactStartContent :=
            some (jsSlice highlighted.fullMarkdown 0 startIndexOfHighlightedText)
          updatedArtifactRestContent :=
            some (jsSliceFrom highlighted.fullMarkdown
              (startIndexOfHighlightedText + (highlighted.markdownBlock.length : Int))) }
    | a, b =>
        { updatedArtifactStartContent := a, updatedArtifactRestContent := b }
  match st1.updatedArtifactStartContent, st1.updatedArtifactRestContent with
  | some s, some r =>
      { updatedArtifactStartContent := some (s ++ deltaContent)
        updatedArtifactRestContent := some r }
  | a, b => { updatedArtifactStartContent := a, updatedArtifactRestContent := b }

/-- Lines 354-367 (updateArtifact branch, span part): the first chunk only
initializes the prefix and suffix from the request char range over the
previous code snapshot; each later chunk appends to the prefix. The first
chunk content itself is never appended. -/
def codeSpanStep (prevCode : String) (startCharIndex endCharIndex : Nat) (st : SpanState) (deltaContent : String) : SpanState :=
  match st.updatedArtifactStartContent, st.updatedArtifactRestContent with
  | none, none =>
      { updatedArtifactStartContent := some (prevCode.take startCharIndex)
        updatedArtifactRestContent := some (prevCode.drop endCharIndex) }
  | a, b =>
      -- JavaScript += coerces undefined to the string "undefined"; both
      -- fields are always assigned together, so only some/some is reachable.
      { updatedArtifactStartContent := some ((a.getD "undefined") ++ deltaContent)
        updatedArtifactRestContent := b }

/-- Template-literal materialization of the evolving document (lines 303
and 371): prefix followed by suffix; a JavaScript template literal renders
undefined as the string "undefined", though both fields are always set at
this point. -/
def spanMaterialize (st : SpanState) : String :=
  (st.updatedArtifactStartContent.getD "undefined")
    ++ (st.updatedArtifactRestContent.getD "undefined")

/-- Folding a sequence of valid highlighted-text deltas through the span
patcher, starting from the fresh state of lines 148-152. -/
def mdSpanFold (highlighted : TextHighlight) (ds : List String) : SpanState :=
  ds.foldl (mdSpanStep highlighted) ⟨none, none⟩

/-- Folding a sequence of valid ranged code-edit deltas through the span
patcher, starting from the fresh state of lines 148-152. -/
def codeSpanFold (prevCode : String) (startCharIndex endCharIndex : Nat) (ds : List String) : SpanState :=
  ds.foldl (codeSpanStep prevCode startCharIndex endCharIndex) ⟨none, none⟩

/-- Outcome of handling one frame: either the fold continues with the new
state (continue in the source loop), or the whole fold stops (a return
statement inside the loop body, which exits streamMessageV2 and leaves all
remaining frames unread). -/
inductive FoldStep (σ : Type)
  | next (st : σ)
  | abortAll (st : σ)
deriving DecidableEq

/-- Modelled from the spec: updateHighlightedMarkdown lives in
./hooks/use-graph/utils, which is not among the sources. Per section 4.3
item 5 it materializes the new text-variant snapshot at the reserved
index, appending it on the first update of the fold and replacing the
snapshot at that index afterwards, and repoints currentIndex to it. -/
def updateHighlightedMarkdown (prev : ArtifactV3) (content : String) (newArtifactIndex : Nat) (prevContent : ArtifactMarkdownV3) (isFirstUpdate : Bool) : ArtifactV3 :=
  let snap : ArtifactContentV3 :=
    .markdown { index := newArtifactIndex, title := prevContent.title, fullMarkdown := content }
  if isFirstUpdate then
    { currentIndex := newArtifactIndex, contents := prev.contents ++ [snap] }
  else
    { currentIndex := newArtifactIndex
      contents := prev.contents.map (fun c => if c.index == newArtifactIndex then snap else c) }

/-- Modelled from the spec: updateHighlightedCode lives in
./hooks/use-graph/utils, which is not among the sources. Per section 4.3
item 6 it updates the in-flight code-variant snapshot at the reserved
index, appending on the first update and replacing afterwards, and
repoints currentIndex to it. -/
def updateHighlightedCode (prev : ArtifactV3) (content : String) (newArtifactIndex : Nat) (prevContent : ArtifactCodeV3) (isFirstUpdate : Bool) : ArtifactV3 :=
  let snap : ArtifactContentV3 :=
    .code { index := newArtifactIndex, title := prevContent.title
            language := prevContent.language, code := content }
  if isFirstUpdate then
    { currentIndex := newArtifactIndex, contents := prev.contents ++ [snap] }
  else
    { currentIndex := newArtifactIndex
      contents := prev.contents.map (fun c => if c.index == newArtifactIndex then snap else c) }

/-- Frames reaching the updateHighlightedText handlers: the on_chain_start
frame that captures the highlight descriptor (line 167-173), and the
on_chat_model_stream delta frames, whose payload is the optional message
content (chunk.data.data.chunk at position 1); a missing payload is none
and an empty content string is some of the empty string. -/
inductive MdFrame
  | chainStart (hl : Option TextHighlight)
  | modelDelta (message : Option String)
deriving DecidableEq

/-- Stream-local variables of one fold that the updateHighlightedText
branch reads and writes (lines 131-160), plus the reported toasts and
console logs. liveArtifact is the React artifact state that setArtifact
updates during the fold. -/
structure MdFoldState where
  highlightedText : Option TextHighlight
  span : SpanState
  isFirstUpdate : Bool
  newArtifactIndex : Option Nat
  liveArtifact : Option ArtifactV3
  toasts : List String
  logs : List String
deriving DecidableEq

/-- Stream-local state at fold start (lines 131-160): no highlight
captured, fresh span state, isFirstUpdate true, newArtifactIndex already
computed as contents length plus one when a closure artifact exists (line
137-139), and the live React artifact still equal to the closure value. -/
def initMdFoldState (artifact0 : Option ArtifactV3) : MdFoldState :=
  { highlightedText := none
    span := ⟨none, none⟩
    isFirstUpdate := true
    newArtifactIndex := artifact0.map (fun a => a.contents.length + 1)
    liveArtifact := artifact0
    toasts := []
    logs := [] }

/-- Lines 167-173 and 230-313: handling of one frame by the
updateHighlightedText branch. artifact0 is the closure variable artifact
(frozen at fold start) and prevCurrentContent the snapshot located from it
on lines 132-134. Checks appear in source order: missing message payload,
missing artifact (console error), missing highlight descriptor (toast) all
skip the frame; missing original snapshot and a non markdown active
snapshot toast and abort the whole fold; empty content skips the frame. -/
def mdHandle (artifact0 : Option ArtifactV3) (prevCurrentContent : Option ArtifactContentV3) (st : MdFoldState) : MdFrame → FoldStep MdFoldState
  | .chainStart hl => .next { st with highlightedText := hl }
  | .modelDelta message =>
    match message with
    | none => .next st
    | some deltaContent =>
      match artifact0 with
      | none =>
          .next { st with logs := st.logs ++ ["No artifacts found when updating highlighted markdown..."] }
      | some artifactA =>
        match st.highlightedText with
        | none => .next { st with toasts := st.toasts ++ ["No highlighted text found"] }
        | some highlighted =>
          match prevCurrentContent with
          | none => .abortAll { st with toasts := st.toasts ++ ["Original artifact not found"] }
          | some prevContent =>
            match prevContent with
            | .code _ =>
                .abortAll { st with toasts := st.toasts ++ ["Received non markdown block update"] }
            | .markdown prevMd =>
              if deltaContent.isEmpty then .next st
              else
                let span := mdSpanStep highlighted st.span deltaContent
                let newIdx := (st.newArtifactIndex).getD (artifactA.contents.length + 1)
                let base := st.liveArtifact.getD artifactA
                let updated :=
                  updateHighlightedMarkdown base (spanMaterialize span)
                    ((some newIdx).getD (artifactA.contents.length + 1)) prevMd st.isFirstUpdate
                .next { st with
                          span := span
                          newArtifactIndex := some newIdx
                          liveArtifact := some updated
                          isFirstUpdate := false }

/-- Driving the updateHighlightedText branch over a frame list: an abort
outcome stops the fold and returns the frames that were never read. -/
def mdBranchRun (artifact0 : Option ArtifactV3) (prevCurrentContent : Option ArtifactContentV3) : MdFoldState → List MdFrame → MdFoldState × List MdFrame
  | st, [] => (st, [])
  | st, f :: fs =>
    match mdHandle artifact0 prevCurrentContent st f with
    | .next st2 => mdBranchRun artifact0 prevCurrentContent st2 fs
    | .abortAll st2 => (st2, fs)

/-- Stream-local variables of one fold that the updateArtifact branch
reads and writes, plus the reported toasts. -/
structure CodeFoldState where
  span : SpanState
  isFirstUpdate : Bool
  newArtifactIndex : Option Nat
  liveArtifact : Option ArtifactV3
  toasts : List String
deriving DecidableEq

/-- Stream-local state of the updateArtifact branch at fold start. -/
def initCodeFoldState (artifact0 : Option ArtifactV3) : CodeFoldState :=
  { span := ⟨none, none⟩
    isFirstUpdate := true
    newArtifactIndex := artifact0.map (fun a => a.contents.length + 1)
    liveArtifact := artifact0
    toasts := [] }

/-- Lines 315-385: handling of one delta frame by the updateArtifact
(ranged code edit) branch. Every precondition failure returns from
streamMessageV2, aborting the whole fold: missing artifact, missing
highlight range and missing original snapshot toast first, a falsy delta
payload aborts silently, and a non code active snapshot toasts. The
reserved index is initialized before the payload check (lines 331-333). -/
def codeHandle (artifact0 : Option ArtifactV3) (prevCurrentContent : Option ArtifactContentV3) (highlighted : Option Highlight) (st : CodeFoldState) (chunkContent : Option String) : FoldStep CodeFoldState :=
  match artifact0 with
  | none => .abortAll { st with toasts := st.toasts ++ ["Original artifact not found"] }
  | some artifactA =>
    match highlighted with
    | none => .abortAll { st with toasts := st.toasts ++ ["No highlighted text found"] }
    | some hl =>
      let st := { st with
                    newArtifactIndex := some ((st.newArtifactIndex).getD (artifactA.contents.length + 1)) }
      match chunkContent with
      | none => .abortAll st
      | some deltaContent =>
        if deltaContent.isEmpty then .abortAll st
        else
          match prevCurrentContent with
          | none => .abortAll { st with toasts := st.toasts ++ ["Original artifact not found"] }
          | some prevContent =>
            match prevContent with
            | .markdown _ =>
                .abortAll { st with toasts := st.toasts ++ ["Received non code block update"] }
            | .code prevCode =>
              let span := codeSpanStep prevCode.code hl.startCharIndex hl.endCharIndex st.span deltaContent
              let content := removeCodeBlockFormatting (spanMaterialize span)
              let base := st.liveArtifact.getD artifactA
              let updated :=
                updateHighlightedCode base content
                  ((st.newArtifactIndex).getD (artifactA.contents.length + 1)) prevCode st.isFirstUpdate
              .next { st with
                        span := span
                        liveArtifact := some updated
                        isFirstUpdate := false }

/-- Driving the updateArtifact branch over the delta payloads of a frame
list: an abort outcome stops the fold and returns the unread frames. -/
def codeBranchRun (artifact0 : Option ArtifactV3) (prevCurrentContent : Option ArtifactContentV3) (highlighted : Option Highlight) : CodeFoldState → List (Option String) → CodeFoldState × List (Option String)
  | st, [] => (st, [])
  | st, f :: fs =>
    match codeHandle artifact0 prevCurrentContent highlighted st f with
    | .next st2 => codeBranchRun artifact0 prevCurrentContent highlighted st2 fs
    | .abortAll st2 => (st2, fs)

/-- Metadata captured from the optionally_update_artifact_meta lifecycle
end frame (RewriteArtifactMetaToolResponse in @/types, section 3 of the
specification). -/
structure RewriteArtifactMetaToolResponse where
  type : String
  title : String
  programmingLanguage : Option String
deriving DecidableEq

/-- Lines 402-417: resolution of the output language for a rewrite delta.
An explicit truthy portLanguage wins; otherwise the captured metadata
language when the declared type is code and the language is truthy;
otherwise the title of the previous snapshot when one exists; otherwise
the generic fallback. -/
def resolveRewriteLanguage (portLanguage : Option String) (meta : RewriteArtifactMetaToolResponse) (prevCurrentContent : Option ArtifactContentV3) : String :=
  let artifactLanguage : Option String :=
    if jsTruthyOpt portLanguage then portLanguage else none
  match artifactLanguage with
  | some l => l
  | none =>
    if meta.type == "code" && jsTruthyOpt meta.programmingLanguage then
      (meta.programmingLanguage).getD ""
    else
      match prevCurrentContent with
      | some c => c.title
      | none => "other"

/-- Modelled from the spec: the snapshot that updateRewrittenArtifact (in
./hooks/use-graph/utils, not among the sources) builds from the rewritten
content, the captured metadata and the resolved language. -/
def rwSnapOf (meta : RewriteArtifactMetaToolResponse) (newArtifactIndex : Nat) (artifactLanguage newContent : String) : ArtifactContentV3 :=
  if meta.type == "code" then
    .code { index := newArtifactIndex, title := meta.title
            language := artifactLanguage, code := newContent }
  else
    .markdown { index := newArtifactIndex, title := meta.title, fullMarkdown := newContent }

/-- Modelled from the spec: updateRewrittenArtifact lives in
./hooks/use-graph/utils, which is not among the sources. Per section 4.3
item 8 it materializes the rewritten content as a brand-new snapshot
appended at the reserved index on the first update of the fold, replacing
the snapshot previously written at that index afterwards, and repoints
currentIndex to it. -/
def updateRewrittenArtifact (prevArtifact : ArtifactV3) (newContent : String) (meta : RewriteArtifactMetaToolResponse) (newArtifactIndex : Nat) (isFirstUpdate : Bool) (artifactLanguage : String) : ArtifactV3 :=
  let snap : ArtifactContentV3 := rwSnapOf meta newArtifactIndex artifactLanguage newContent
  if isFirstUpdate then
    { currentIndex := newArtifactIndex, contents := prevArtifact.contents ++ [snap] }
  else
    { currentIndex := newArtifactIndex
      contents := prevArtifact.contents.map (fun c => if c.index == newArtifactIndex then snap else c) }

/-- Stream-local variables of one fold that the rewriteArtifact branch
reads and writes, plus the reported toasts. -/
structure RwFoldState where
  newArtifactContent : String
  isFirstUpdate : Bool
  newArtifactIndex : Option Nat
  liveArtifact : Option ArtifactV3
  toasts : List String
deriving DecidableEq

/-- Stream-local state of the rewriteArtifact branch at fold start. -/
def initRwFoldState (artifact0 : Option ArtifactV3) : RwFoldState :=
  { newArtifactContent := ""
    isFirstUpdate := true
    newArtifactIndex := artifact0.map (fun a => a.contents.length + 1)
    liveArtifact := artifact0
    toasts := [] }

/-- Lines 387-450: handling of one delta frame by the rewriteArtifact
branch, which only runs once rewriteArtifactMeta has been captured (the
dispatch condition on line 390 requires it). A missing chunk content is
replaced by the empty string; the accumulated content fully replaces the
document, stripped of a fenced wrapper when the declared type is code. -/
def rwHandle (artifact0 : Option ArtifactV3) (prevCurrentContent : Option ArtifactContentV3) (portLanguage : Option String) (meta : RewriteArtifactMetaToolResponse) (st : RwFoldState) (chunkContent : Option String) : FoldStep RwFoldState :=
  match artifact0 with
  | none => .abortAll { st with toasts := st.toasts ++ ["Original artifact not found"] }
  | some artifactA =>
    let newArtifactContent := st.newArtifactContent ++ (chunkContent.getD "")
    let artifactLanguage := resolveRewriteLanguage portLanguage meta prevCurrentContent
    let newIdx := (st.newArtifactIndex).getD (artifactA.contents.length + 1)
    let content :=
      if meta.type == "code" then removeCodeBlockFormatting newArtifactContent
      else newArtifactContent
    let base := st.liveArtifact.getD artifactA
    let updated :=
      updateRewrittenArtifact base content meta newIdx st.isFirstUpdate artifactLanguage
    .next { newArtifactContent := newArtifactContent
            isFirstUpdate := false
            newArtifactIndex := some newIdx
            liveArtifact := some updated
            toasts := st.toasts }

/-- Driving the rewriteArtifact branch over the delta payloads of a frame
list: an abort outcome stops the fold and returns the unread frames. -/
def rwBranchRun (artifact0 : Option ArtifactV3) (prevCurrentContent : Option ArtifactContentV3) (portLanguage : Option String) (meta : RewriteArtifactMetaToolResponse) : RwFoldState → List (Option String) → RwFoldState × List (Option String)
  | st, [] => (st, [])
  | st, f :: fs =>
    match rwHandle artifact0 prevCurrentContent portLanguage meta st f with
    | .next st2 => rwBranchRun artifact0 prevCurrentContent portLanguage meta st2 fs
    | .abortAll st2 => (st2, fs)

/-- Partially parsed tool response for artifact generation
(ArtifactToolResponse in @/types): every field may still be missing. -/
structure ArtifactToolResponse where
  artifact : Option String
  title : Option String
  type : Option String
  language : Option String
deriving DecidableEq

/-- Lines 202-206: the parsed value gets its title and type defaulted to
the empty string. -/
def normalizeToolResponse (r : ArtifactToolResponse) : ArtifactToolResponse :=
  { r with title := some ((r.title).getD ""), type := some ((r.type).getD "") }

/-- Line 211-215: the guard under which a parsed tool response produces an
artifact: truthy content payload, and type text, or type code with a
truthy language. -/
def generateArtifactGuard (r : ArtifactToolResponse) : Bool :=
  jsTruthyOpt r.artifact
    && (r.type == some "text" || (r.type == some "code" && jsTruthyOpt r.language))

/-- Modelled from the spec: createNewGeneratedArtifactFromTool lives in
./hooks/use-graph/utils, which is not among the sources. Per section 4.3
item 4 it builds the single content snapshot at index 1 from the parsed
tool response, and yields nothing for an unresolvable type. -/
def createNewGeneratedArtifactFromTool (r : ArtifactToolResponse) : Option ArtifactContentV3 :=
  if r.type == some "code" then
    some (.code { index := 1, title := (r.title).getD ""
                  language := (r.language).getD "", code := (r.artifact).getD "" })
  else if r.type == some "text" then
    some (.markdown { index := 1, title := (r.title).getD ""
                      fullMarkdown := (r.artifact).getD "" })
  else none

/-- Stream-local variables of one fold that the generateArtifact branch
reads and writes: the accumulated tool-call string and the live artifact. -/
structure GenArtifactState where
  generateArtifactToolCallStr : String
  liveArtifact : Option ArtifactV3
deriving DecidableEq

/-- Lines 191-228: handling of one delta frame by the generateArtifact
branch. The frame args are appended to the accumulated string (JavaScript
+= renders a missing args field as the string "undefined"); the
accumulated string is then parsed by the partial JSON parser, which is an
external library function and is therefore a parameter here. A parse
failure skips the frame silently; a successful parse failing the guard
leaves the artifact alone; a successful parse passing the guard replaces
the artifact wholesale with a one-snapshot artifact at currentIndex 1. -/
def generateArtifactStep (parsePartialJson : String → Option ArtifactToolResponse) (st : GenArtifactState) (args : Option String) : GenArtifactState :=
  let str := st.generateArtifactToolCallStr ++ (args.getD "undefined")
  match parsePartialJson str with
  | none => { st with generateArtifactToolCallStr := str }
  | some r0 =>
    let r := normalizeToolResponse r0
    if generateArtifactGuard r then
      { generateArtifactToolCallStr := str
        liveArtifact :=
          match createNewGeneratedArtifactFromTool r with
          | none => none
          | some content => some { currentIndex := 1, contents := [content] } }
    else { st with generateArtifactToolCallStr := str }

/-- Replacement applied by setArtifactContent to a matching snapshot:
the code text of the code variant is swapped out. -/
def ArtifactContentV3.withCode : ArtifactContentV3 → String → ArtifactContentV3
  | .code c, s => .code { c with code := s }
  | .markdown m, _ => .markdown m

/-- Lines 629-654: setArtifactContent. Without an artifact it toasts and
leaves the state alone; otherwise it repoints currentIndex to the given
index and rewrites the code of the snapshots matching that index and the
code type, passing the content through reverseCleanContent, a helper from
@/lib/normalize_string that is not among the sources and is therefore a
parameter here. Returns the new artifact state and the toast, if any. -/
def setArtifactContent (reverseCleanContent : String → String) (prev : Option ArtifactV3) (index : Nat) (content : String) : Option ArtifactV3 × Option String :=
  match prev with
  | none => (none, some "No artifact found")
  | some a =>
    (some { currentIndex := index
            contents := a.contents.map (fun c =>
              if c.index == index && isArtifactCodeContent c then
                c.withCode (reverseCleanContent content)
              else c) }
    , none)

/-- One structured tool call attached to a stored message; args carry the
shared run URL when the call is the synthesized share reference. -/
structure ToolCall where
  name : String
  argsSharedRunURL : Option String
  callId : Option String
deriving DecidableEq

/-- A persisted chat message as the session switch reconciler sees it:
identity, content, the out-of-band shared-run URL from response metadata,
and the structured tool calls. -/
structure StoredMessage where
  id : String
  content : String
  langSmithRunURL : Option String
  toolCalls : List ToolCall
deriving DecidableEq

/-- Lines 694-696: the synthetic call id is the first path segment after
the public share prefix. In JavaScript a URL without that prefix makes the
chained split throw; that branch is modelled as none. -/
def extractRunId (url : String) : Option String :=
  ((url.splitOn "https://smith.langchain.com/public/").get? 1).map
    (fun rest => (rest.splitOn "/").headD "")

/-- Lines 691-697: the synthesized langsmith_tool_ui tool call. -/
def mkLangsmithToolCall (url : String) : ToolCall :=
  { name := "langsmith_tool_ui", argsSharedRunURL := some url, callId := extractRunId url }

/-- Lines 687-702 (switchSelectedThread message mapping): a message whose
response metadata carries a truthy shared-run URL gets the synthesized
tool call pushed onto its tool-call list; every other message is returned
unchanged. No check for an already present annotation is made. -/
def reconcileMessage (msg : StoredMessage) : StoredMessage :=
  match msg.langSmithRunURL with
  | some url =>
      if url.isEmpty then msg
      else { msg with toolCalls := msg.toolCalls ++ [mkLangsmithToolCall url] }
  | none => msg

/-- Lines 687-702: the reconciler maps reconcileMessage over the persisted
messages before storing them. -/
def reconcileThreadMessages (msgs : List StoredMessage) : List StoredMessage :=
  msgs.map reconcileMessage

/-- Engine state owned by the hook: message list, artifact, streaming flag. -/
structure EngineState where
  messages : List StoredMessage
  artifact : Option ArtifactV3
  isStreaming : Bool
deriving DecidableEq

/-- Observable outcome of a streamMessageV2 invocation: the resulting
engine state, whether the transport stream was opened, the toasts raised,
and the return value (undefined is none). -/
structure StreamOutcome where
  state : EngineState
  streamOpened : Bool
  toasts : List String
  result : Option Unit
deriving DecidableEq

/-- Lines 89-129: the entry guards of streamMessageV2. A falsy thread id
or assistant id toasts and returns undefined before the client is created,
before setIsStreaming is called and before the stream is opened; otherwise
the fold itself runs, abstracted here as the continuation runFold. -/
def streamMessageV2Entry (threadId assistantId : Option String) (st : EngineState) (runFold : EngineState → StreamOutcome) : StreamOutcome :=
  if !jsTruthyOpt threadId then
    { state := st, streamOpened := false, toasts := ["Thread ID not found"], result := none }
  else if !jsTruthyOpt assistantId then
    { state := st, streamOpened := false, toasts := ["Assistant ID not found"], result := none }
  else runFold st

/-! Helper lemmas about lists of characters and the fence pattern. -/

theorem dropWhile_append_all {p : Char → Bool} {l r : List Char} (h : l.all p = true) :
    (l ++ r).dropWhile p = r.dropWhile p := by
  induction l with
  | nil => rfl
  | cons a t ih =>
    rw [List.all_cons, Bool.and_eq_true] at h
    rw [List.cons_append, List.dropWhile_cons, if_pos h.1]
    exact ih h.2

theorem wrapCodeBlock_data (lang code : String) :
    (wrapCodeBlock lang code).data
      = '`' :: '`' :: '`' :: (lang.data ++ '\n' :: (code.data ++ ['\n', '`', '`', '`'])) := by
  show ("```" ++ lang ++ "\n" ++ code ++ "\n```").data = _
  rw [String.data_append, String.data_append, String.data_append, String.data_append]
  rw [show "```".data = ['`', '`', '`'] from rfl, show "\n".data = ['\n'] from rfl,
    show "\n```".data = ['\n', '`', '`', '`'] from rfl]
  simp [List.append_assoc]

theorem codeBlockMatch_wrapped (langL cL : List Char) (h : langL.all isWordDashChar = true) :
    codeBlockMatch ('`' :: '`' :: '`' :: (langL ++ '\n' :: (cL ++ ['\n', '`', '`', '`'])))
      = some cL := by
  unfold codeBlockMatch
  rw [if_pos (by simp [List.isPrefixOf])]
  have hdrop : (('`' :: '`' :: '`' :: (langL ++ '\n' :: (cL ++ ['\n', '`', '`', '`']))).drop 3)
      = langL ++ '\n' :: (cL ++ ['\n', '`', '`', '`']) := rfl
  simp only [hdrop, dropWhile_append_all h, List.dropWhile_cons,
    show isWordDashChar '\n' = false from rfl, Bool.false_eq_true, if_false]
  simp only [List.head?_cons, List.tail_cons]
  rw [if_pos (show ((some '\n' == some '\n') = true) from rfl)]
  rw [if_pos (List.isSuffixOf_iff_suffix.mpr (List.suffix_append cL ['\n', '`', '`', '`']))]
  congr 1
  rw [List.length_append]
  have h4 : cL.length + (['\n', '`', '`', '`'] : List Char).length - 4 = cL.length := rfl
  rw [h4]
  exact List.take_left cL ['\n', '`', '`', '`']

theorem removeCodeBlockFormatting_wrapped (lang code : String)
    (h : lang.data.all isWordDashChar = true) :
    removeCodeBlockFormatting (wrapCodeBlock lang code) = jsTrim code := by
  have hdata := wrapCodeBlock_data lang code
  have hmatch : codeBlockMatch (wrapCodeBlock lang code).data = some code.data := by
    rw [hdata]
    exact codeBlockMatch_wrapped lang.data code.data h
  have hne : (wrapCodeBlock lang code).isEmpty = false := by
    rw [Bool.eq_false_iff]
    intro hcontra
    have hempty := (String.isEmpty_iff _).mp hcontra
    have hd := congrArg String.data hempty
    rw [hdata, show ("".data) = ([] : List Char) from rfl] at hd
    exact absurd hd (by simp)
  unfold removeCodeBlockFormatting
  rw [hne]
  simp only [Bool.false_eq_true, if_false]
  rw [hmatch]
  rfl

/-- Claim C6 counterexample: stripping the fenced wrapper around the code
text " x" yields "x", not " x": the trim on line 63 removes the leading
space, so the round trip is not the identity on code with leading or
trailing whitespace. -/
theorem C6_counterexample :
    removeCodeBlockFormatting (wrapCodeBlock "" " x") = "x" ∧ ("x" : String) ≠ " x" :=
  ⟨by decide, by decide⟩

/-- Claim C6 (amended): wrapping arbitrary code text in a fenced block
(with a language tag drawn from the [\w-] class) and stripping it yields
the code text trimmed of leading and trailing whitespace, hence the code
text itself exactly when it carries none; and a string that is not
entirely wrapped in such a fence is returned unchanged. -/
theorem C6_fence_strip :
    (∀ lang code : String, lang.data.all isWordDashChar = true →
        removeCodeBlockFormatting (wrapCodeBlock lang code) = jsTrim code) ∧
    (∀ text : String, codeBlockMatch text.data = none →
        removeCodeBlockFormatting text = text) := by
  constructor
  · exact removeCodeBlockFormatting_wrapped
  · intro text h
    unfold removeCodeBlockFormatting
    rw [h]
    split <;> rfl

/-- Witness for the amended claim C6 theorem at concrete inputs. -/
theorem C6_witness :
    removeCodeBlockFormatting (wrapCodeBlock "js" "a = 1") = jsTrim "a = 1" ∧
    removeCodeBlockFormatting "plain text" = "plain text" :=
  ⟨C6_fence_strip.1 "js" "a = 1" (by decide), C6_fence_strip.2 "plain text" (by decide)⟩

/-! Span patcher lemmas. -/

/-- The prefix computed once for a highlighted-text edit (lines 279-283). -/
def mdPrefix (highlighted : TextHighlight) : String :=
  jsSlice highlighted.fullMarkdown 0
    (jsIndexOf highlighted.fullMarkdown highlighted.markdownBlock)

/-- The suffix computed once for a highlighted-text edit (lines 284-287). -/
def mdSuffix (highlighted : TextHighlight) : String :=
  jsSliceFrom highlighted.fullMarkdown
    (jsIndexOf highlighted.fullMarkdown highlighted.markdownBlock
      + (highlighted.markdownBlock.length : Int))

theorem mdSpanStep_fresh (highlighted : TextHighlight) (d : String) :
    mdSpanStep highlighted ⟨none, none⟩ d
      = ⟨some (mdPrefix highlighted ++ d), some (mdSuffix highlighted)⟩ := rfl

theorem mdSpanStep_frozen (highlighted : TextHighlight) (s r d : String) :
    mdSpanStep highlighted ⟨some s, some r⟩ d = ⟨some (s ++ d), some r⟩ := rfl

theorem codeSpanStep_fresh (prevCode : String) (a b : Nat) (d : String) :
    codeSpanStep prevCode a b ⟨none, none⟩ d
      = ⟨some (prevCode.take a), some (prevCode.drop b)⟩ := rfl

theorem codeSpanStep_frozen (prevCode : String) (a b : Nat) (s r d : String) :
    codeSpanStep prevCode a b ⟨some s, some r⟩ d = ⟨some (s ++ d), some r⟩ := rfl

/-- Once both span fields are frozen, folding any delta list only appends
the concatenation of the deltas to the prefix. -/
theorem spanFold_frozen (step : SpanState → String → SpanState)
    (hstep : ∀ s r d, step ⟨some s, some r⟩ d = ⟨some (s ++ d), some r⟩) :
    ∀ (ds : List String) (s r : String),
      ds.foldl step ⟨some s, some r⟩ = ⟨some (s ++ strConcat ds), some r⟩ := by
  intro ds
  induction ds with
  | nil =>
    intro s r
    simp [strConcat, String.append_empty]
  | cons d t ih =>
    intro s r
    rw [List.foldl_cons, hstep, ih (s ++ d) r]
    rw [show strConcat (d :: t) = d ++ strConcat t from rfl, String.append_assoc]

/-- Claim C1 counterexample at a concrete ranged code edit: the deltas
X then Y and the single delta XY concatenate to the same total text, yet
produce different final documents, because the first delta of a ranged
code edit is dropped; and the single-delta run does not equal prefix plus
delta text plus suffix either. -/
theorem C1_counterexample :
    strConcat ["X", "Y"] = strConcat ["XY"] ∧
    removeCodeBlockFormatting (spanMaterialize (codeSpanFold "abc123xyz" 3 6 ["X", "Y"]))
      ≠ removeCodeBlockFormatting (spanMaterialize (codeSpanFold "abc123xyz" 3 6 ["XY"])) ∧
    removeCodeBlockFormatting (spanMaterialize (codeSpanFold "abc123xyz" 3 6 ["XY"]))
      ≠ "abc" ++ "XY" ++ "xyz" :=
  ⟨by decide, by decide, by decide⟩

/-- Claim C1 (amended): for highlighted-text edits the property holds as
stated: prefix and suffix are computed on the first valid delta and frozen,
every valid delta is appended, the materialized document equals prefix ++
deltas ++ suffix, and re-chunking the same total delta text yields the
identical document. For ranged code edits the first valid delta only
initializes the prefix and suffix and its content is dropped: the final
materialized document is the fence-stripped prefix ++ (d2 ++ ... ++ dn) ++
suffix. -/
theorem C1_span_append_only :
    (∀ (highlighted : TextHighlight) (d : String) (ds : List String),
        spanMaterialize (mdSpanFold highlighted (d :: ds))
          = mdPrefix highlighted ++ (d ++ strConcat ds) ++ mdSuffix highlighted) ∧
    (∀ (highlighted : TextHighlight) (ds es : List String), ds ≠ [] → es ≠ [] →
        strConcat ds = strConcat es →
        spanMaterialize (mdSpanFold highlighted ds)
          = spanMaterialize (mdSpanFold highlighted es)) ∧
    (∀ (prevCode : String) (a b : Nat) (d : String) (ds : List String),
        removeCodeBlockFormatting (spanMaterialize (codeSpanFold prevCode a b (d :: ds)))
          = removeCodeBlockFormatting
              (prevCode.take a ++ strConcat ds ++ prevCode.drop b)) := by
  have hmd : ∀ (highlighted : TextHighlight) (d : String) (ds : List String),
      spanMaterialize (mdSpanFold highlighted (d :: ds))
        = mdPrefix highlighted ++ (d ++ strConcat ds) ++ mdSuffix highlighted := by
    intro highlighted d ds
    unfold mdSpanFold
    rw [List.foldl_cons, mdSpanStep_fresh,
      spanFold_frozen (mdSpanStep highlighted) (mdSpanStep_frozen highlighted) ds]
    unfold spanMaterialize
    simp only [Option.getD_some]
    rw [String.append_assoc (mdPrefix highlighted) d (strConcat ds)]
  refine ⟨hmd, ?_, ?_⟩
  · intro highlighted ds es hds hes heq
    match ds, es with
    | d :: ds, e :: es =>
      rw [hmd, hmd]
      have : d ++ strConcat ds = e ++ strConcat es := heq
      rw [this]
  · intro prevCode a b d ds
    unfold codeSpanFold
    rw [List.foldl_cons, codeSpanStep_fresh,
      spanFold_frozen (codeSpanStep prevCode a b) (codeSpanStep_frozen prevCode a b) ds]
    unfold spanMaterialize
    simp only [Option.getD_some]

/-- Witness for the amended claim C1 theorem: a concrete text edit, the
re-chunking instance, and a concrete ranged code edit. -/
theorem C1_span_append_only_witness :
    spanMaterialize (mdSpanFold ⟨"ab12cd", "12"⟩ ["X", "Y"])
      = spanMaterialize (mdSpanFold ⟨"ab12cd", "12"⟩ ["XY"]) :=
  C1_span_append_only.2.1 ⟨"ab12cd", "12"⟩ ["X", "Y"] ["XY"]
    (by decide) (by decide) (by decide)

/-- Claim C2 counterexample: on the code document "abc123xyz" with range 3
to 6 and the two ranged-edit deltas of the scenario, the snapshot written
at the reserved index 2 carries the code "abc" ++ newline ++ "```xyz", not
"abcXXXxyz": the first delta (which holds the opening fence and the
replacement text XXX) is dropped by the else branch on lines 364-367, and
the fence stripper leaves the materialized document alone because the
fence does not span the whole string. -/
theorem C2_counterexample :
    ((codeBranchRun
          (some ⟨1, [.code ⟨1, "t", "javascript", "abc123xyz"⟩]⟩)
          (some (.code ⟨1, "t", "javascript", "abc123xyz"⟩))
          (some ⟨3, 6⟩)
          (initCodeFoldState (some ⟨1, [.code ⟨1, "t", "javascript", "abc123xyz"⟩]⟩))
          [some "```js\nXXX", some "\n```"]).1.liveArtifact.bind
        (fun a => (a.contents.find? (fun c => c.index == 2)).bind ArtifactContentV3.codeText))
      = some "abc\n```xyz" ∧
    some ("abc\n```xyz" : String) ≠ some ("abcXXXxyz" : String) :=
  ⟨by decide, by decide⟩

/-- Claim C2 (amended): the scenario produces the artifact whose new
snapshot at index 2 carries the code "abc" ++ newline ++ "```xyz": the
prefix "abc" and suffix "xyz" are computed from the range on the first
delta, the first delta content is dropped, the second delta appends, and
fence stripping leaves the result unchanged. -/
theorem C2_ranged_edit_result :
    (codeBranchRun
        (some ⟨1, [.code ⟨1, "t", "javascript", "abc123xyz"⟩]⟩)
        (some (.code ⟨1, "t", "javascript", "abc123xyz"⟩))
        (some ⟨3, 6⟩)
        (initCodeFoldState (some ⟨1, [.code ⟨1, "t", "javascript", "abc123xyz"⟩]⟩))
        [some "```js\nXXX", some "\n```"]).1.liveArtifact
      = some ⟨2, [.code ⟨1, "t", "javascript", "abc123xyz"⟩,
                  .code ⟨2, "t", "javascript", "abc\n```xyz"⟩]⟩ := by
  decide

/-- A tool response passing the generation guard always yields a snapshot,
and that snapshot sits at index 1. -/
theorem createNew_of_guard (r : ArtifactToolResponse)
    (h : generateArtifactGuard (normalizeToolResponse r) = true) :
    ∃ c, createNewGeneratedArtifactFromTool (normalizeToolResponse r) = some c
      ∧ c.index = 1 := by
  unfold generateArtifactGuard at h
  rw [Bool.and_eq_true, Bool.or_eq_true] at h
  unfold createNewGeneratedArtifactFromTool
  rcases h.2 with ht | hc
  · have ht2 : (normalizeToolResponse r).type = some "text" := beq_iff_eq.mp ht
    rw [ht2, if_neg (show ¬((some "text" == some "code") = true) by decide),
      if_pos (show ((some "text" == some "text") = true) from rfl)]
    exact ⟨_, rfl, rfl⟩
  · rw [Bool.and_eq_true] at hc
    have ht2 : (normalizeToolResponse r).type = some "code" := beq_iff_eq.mp hc.1
    rw [ht2, if_pos (show ((some "code" == some "code") = true) from rfl)]
    exact ⟨_, rfl, rfl⟩

/-- Claim C3: a generate-artifact delta always appends its args to the
accumulated tool-call string; when the accumulated string parses to a
response passing the guard (content payload and resolvable type, language
included for code), the artifact is replaced wholesale by a brand-new
one-snapshot artifact with currentIndex 1 and snapshot index 1, whatever
the prior artifact was; when the parse fails, or succeeds but fails the
guard, the artifact is left untouched and no error is raised. -/
theorem C3_generate_artifact (parsePartialJson : String → Option ArtifactToolResponse)
    (st : GenArtifactState) (args : Option String) :
    ((generateArtifactStep parsePartialJson st args).generateArtifactToolCallStr
        = st.generateArtifactToolCallStr ++ (args.getD "undefined")) ∧
    (∀ r, parsePartialJson (st.generateArtifactToolCallStr ++ (args.getD "undefined")) = some r →
        generateArtifactGuard (normalizeToolResponse r) = true →
        ∃ c, (generateArtifactStep parsePartialJson st args).liveArtifact = some ⟨1, [c]⟩
          ∧ c.index = 1) ∧
    (parsePartialJson (st.generateArtifactToolCallStr ++ (args.getD "undefined")) = none →
        (generateArtifactStep parsePartialJson st args).liveArtifact = st.liveArtifact) ∧
    (∀ r, parsePartialJson (st.generateArtifactToolCallStr ++ (args.getD "undefined")) = some r →
        generateArtifactGuard (normalizeToolResponse r) = false →
        (generateArtifactStep parsePartialJson st args).liveArtifact = st.liveArtifact) := by
  refine ⟨?_, ?_, ?_, ?_⟩
  · cases hp : parsePartialJson (st.generateArtifactToolCallStr ++ (args.getD "undefined")) with
    | none => simp [generateArtifactStep, hp]
    | some r0 =>
      by_cases hg : generateArtifactGuard (normalizeToolResponse r0) = true
      · simp [generateArtifactStep, hp, hg]
      · simp [generateArtifactStep, hp, hg]
  · intro r hpr hg
    obtain ⟨c, hc, hidx⟩ := createNew_of_guard r hg
    refine ⟨c, ?_, hidx⟩
    simp [generateArtifactStep, hpr, hg, hc]
  · intro hp
    simp [generateArtifactStep, hp]
  · intro r hpr hg
    simp [generateArtifactStep, hpr, hg]

/-- A concrete partial parser used only to witness claim C3: it recognizes
exactly the accumulated string "ab". -/
def parseGen0 : String → Option ArtifactToolResponse := fun s =>
  if s == "ab" then some ⟨some "body", some "T", some "text", none⟩ else none

/-- Witness for the claim C3 theorem: two fragments of the tool-call
string, the second of which completes a parsable response of type text. -/
theorem C3_witness :
    ∃ c, (generateArtifactStep parseGen0 ⟨"a", none⟩ (some "b")).liveArtifact = some ⟨1, [c]⟩
      ∧ c.index = 1 :=
  (C3_generate_artifact parseGen0 ⟨"a", none⟩ (some "b")).2.1
    ⟨some "body", some "T", some "text", none⟩ (by decide) (by decide)

/-- Claim C4 counterexample: two concrete folds refute the claimed
precondition policy. First, with the active snapshot being the code
variant, the first delta frame raises the toast and the whole fold aborts,
leaving the second frame unread, so a precondition failure does abort the
whole fold and does not merely skip the frame. Second, with no highlight
descriptor captured yet, the first delta frame is skipped (with a toast)
rather than aborting this event type: after a later capture frame, a
further delta writes a new snapshot (the artifact grows to two contents
and every frame is consumed). -/
theorem C4_counterexample :
    (let artifactA : ArtifactV3 := ⟨1, [.code ⟨1, "t", "javascript", "abc"⟩]⟩
     let run := mdBranchRun (some artifactA) (some (.code ⟨1, "t", "javascript", "abc"⟩))
        { initMdFoldState (some artifactA) with highlightedText := some ⟨"doc", "doc"⟩ }
        [.modelDelta (some "x"), .modelDelta (some "y")]
     run.2 = [.modelDelta (some "y")] ∧
       run.1.toasts = ["Received non markdown block update"]) ∧
    (let artifactB : ArtifactV3 := ⟨1, [.markdown ⟨1, "t", "## T\n\nHello"⟩]⟩
     let run := mdBranchRun (some artifactB) (some (.markdown ⟨1, "t", "## T\n\nHello"⟩))
        (initMdFoldState (some artifactB))
        [.modelDelta (some "x"), .chainStart (some ⟨"## T\n\nHello", "Hello"⟩),
          .modelDelta (some "y")]
     run.1.liveArtifact.map (fun a => a.contents.length) = some 2 ∧
       run.1.toasts = ["No highlighted text found"] ∧ run.2 = []) := by
  exact ⟨⟨by decide, by decide⟩, ⟨by decide, by decide, by decide⟩⟩

/-- Claim C4 (amended): for a highlighted-text delta frame, a missing
message payload skips the frame silently; a missing artifact logs to the
console and skips the frame; a missing highlight descriptor toasts and
skips the frame (so a later capture frame can resume processing); a
missing original snapshot, or an active snapshot that is not the text
variant, toasts and aborts the entire fold, dropping every remaining frame
of every event type. -/
theorem C4_preconditions (artifact0 : Option ArtifactV3)
    (prevCurrentContent : Option ArtifactContentV3) (st : MdFoldState) (deltaContent : String) :
    (mdHandle artifact0 prevCurrentContent st (.modelDelta none) = .next st) ∧
    (artifact0 = none →
        mdHandle artifact0 prevCurrentContent st (.modelDelta (some deltaContent))
          = .next { st with
              logs := st.logs ++ ["No artifacts found when updating highlighted markdown..."] }) ∧
    (∀ a, artifact0 = some a → st.highlightedText = none →
        mdHandle artifact0 prevCurrentContent st (.modelDelta (some deltaContent))
          = .next { st with toasts := st.toasts ++ ["No highlighted text found"] }) ∧
    (∀ a hl, artifact0 = some a → st.highlightedText = some hl → prevCurrentContent = none →
        mdHandle artifact0 prevCurrentContent st (.modelDelta (some deltaContent))
          = .abortAll { st with toasts := st.toasts ++ ["Original artifact not found"] }) ∧
    (∀ a hl p, artifact0 = some a → st.highlightedText = some hl →
        prevCurrentContent = some p → isArtifactMarkdownContent p = false →
        mdHandle artifact0 prevCurrentContent st (.modelDelta (some deltaContent))
          = .abortAll { st with toasts := st.toasts ++ ["Received non markdown block update"] }) ∧
    (∀ f fs st2, mdHandle artifact0 prevCurrentContent st f = .abortAll st2 →
        mdBranchRun artifact0 prevCurrentContent st (f :: fs) = (st2, fs)) := by
  refine ⟨rfl, ?_, ?_, ?_, ?_, ?_⟩
  · intro h
    subst h
    rfl
  · intro a ha hhl
    subst ha
    simp [mdHandle, hhl]
  · intro a hl ha hhl hp
    subst ha
    subst hp
    simp [mdHandle, hhl]
  · intro a hl p ha hhl hp hmd
    subst ha
    subst hp
    cases p with
    | code c => simp [mdHandle, hhl]
    | markdown m => simp [isArtifactMarkdownContent] at hmd
  · intro f fs st2 h
    simp [mdBranchRun, h]

/-- Witness for the amended claim C4 theorem: a missing highlight
descriptor toasts and skips the frame. -/
theorem C4_witness :
    mdHandle (some ⟨1, []⟩) none (initMdFoldState (some ⟨1, []⟩)) (.modelDelta (some "x"))
      = .next { initMdFoldState (some ⟨1, []⟩) with
          toasts := (initMdFoldState (some ⟨1, []⟩)).toasts ++ ["No highlighted text found"] } :=
  (C4_preconditions (some ⟨1, []⟩) none (initMdFoldState (some ⟨1, []⟩)) "x").2.2.1
    ⟨1, []⟩ rfl rfl

/-! Rewrite branch lemmas. -/

theorem rwSnapOf_index (meta : RewriteArtifactMetaToolResponse) (idx : Nat)
    (lang content : String) : (rwSnapOf meta idx lang content).index = idx := by
  unfold rwSnapOf
  split <;> rfl

theorem updateRewrittenArtifact_first (pa : ArtifactV3) (content : String)
    (meta : RewriteArtifactMetaToolResponse) (idx : Nat) (lang : String) :
    updateRewrittenArtifact pa content meta idx true lang
      = ⟨idx, pa.contents ++ [rwSnapOf meta idx lang content]⟩ := rfl

theorem updateRewrittenArtifact_later (pa : ArtifactV3) (content : String)
    (meta : RewriteArtifactMetaToolResponse) (idx : Nat) (lang : String) :
    updateRewrittenArtifact pa content meta idx false lang
      = ⟨idx, pa.contents.map
          (fun c => if c.index == idx then rwSnapOf meta idx lang content else c)⟩ := rfl

theorem rwHandle_some (A : ArtifactV3) (prev : Option ArtifactContentV3)
    (pl : Option String) (meta : RewriteArtifactMetaToolResponse)
    (st : RwFoldState) (d : Option String) :
    rwHandle (some A) prev pl meta st d
      = .next { newArtifactContent := st.newArtifactContent ++ (d.getD "")
                isFirstUpdate := false
                newArtifactIndex := some ((st.newArtifactIndex).getD (A.contents.length + 1))
                liveArtifact := some (updateRewrittenArtifact (st.liveArtifact.getD A)
                  (if meta.type == "code"
                    then removeCodeBlockFormatting (st.newArtifactContent ++ (d.getD ""))
                    else st.newArtifactContent ++ (d.getD ""))
                  meta ((st.newArtifactIndex).getD (A.contents.length + 1)) st.isFirstUpdate
                  (resolveRewriteLanguage pl meta prev))
                toasts := st.toasts } := rfl

/-- Once one rewrite delta has written the snapshot at the reserved index,
every further delta preserves the shape: the live artifact stays the
pre-fold contents (possibly rewritten in place) plus exactly one snapshot
carrying the reserved index, and the reserved index never changes. -/
theorem rwBranchRun_preserves (A : ArtifactV3) (prev : Option ArtifactContentV3)
    (pl : Option String) (meta : RewriteArtifactMetaToolResponse) :
    ∀ (ds : List (Option String)) (st : RwFoldState),
      st.newArtifactIndex = some (A.contents.length + 1) →
      st.isFirstUpdate = false →
      (∃ B snap, st.liveArtifact = some ⟨A.contents.length + 1, B ++ [snap]⟩ ∧
          B.length = A.contents.length ∧ snap.index = A.contents.length + 1) →
      ∃ st2, rwBranchRun (some A) prev pl meta st ds = (st2, []) ∧
        st2.newArtifactIndex = some (A.contents.length + 1) ∧
        st2.isFirstUpdate = false ∧
        (∃ B snap, st2.liveArtifact = some ⟨A.contents.length + 1, B ++ [snap]⟩ ∧
            B.length = A.contents.length ∧ snap.index = A.contents.length + 1) := by
  intro ds
  induction ds with
  | nil =>
    intro st h1 h2 h3
    exact ⟨st, rfl, h1, h2, h3⟩
  | cons d t ih =>
    intro st h1 h2 h3
    obtain ⟨B, snap, hlive, hB, hsnap⟩ := h3
    have hstep : rwHandle (some A) prev pl meta st d
        = .next { newArtifactContent := st.newArtifactContent ++ (d.getD "")
                  isFirstUpdate := false
                  newArtifactIndex := some (A.contents.length + 1)
                  liveArtifact := some ⟨A.contents.length + 1,
                    B.map (fun c => if c.index == A.contents.length + 1
                        then rwSnapOf meta (A.contents.length + 1)
                          (resolveRewriteLanguage pl meta prev)
                          (if meta.type == "code"
                            then removeCodeBlockFormatting (st.newArtifactContent ++ (d.getD ""))
                            else st.newArtifactContent ++ (d.getD ""))
                        else c)
                    ++ [rwSnapOf meta (A.contents.length + 1)
                          (resolveRewriteLanguage pl meta prev)
                          (if meta.type == "code"
                            then removeCodeBlockFormatting (st.newArtifactContent ++ (d.getD ""))
                            else st.newArtifactContent ++ (d.getD ""))]⟩
                  toasts := st.toasts } := by
      rw [rwHandle_some A prev pl meta st d, h1, hlive, h2]
      simp only [Option.getD_some]
      rw [updateRewrittenArtifact_later, List.map_append]
      simp [hsnap]
    obtain ⟨st2, hrun, hi2, hf2, hshape⟩ :=
      ih { newArtifactContent := st.newArtifactContent ++ (d.getD "")
           isFirstUpdate := false
           newArtifactIndex := some (A.contents.length + 1)
           liveArtifact := some ⟨A.contents.length + 1,
             B.map (fun c => if c.index == A.contents.length + 1
                 then rwSnapOf meta (A.contents.length + 1)
                   (resolveRewriteLanguage pl meta prev)
                   (if meta.type == "code"
                     then removeCodeBlockFormatting (st.newArtifactContent ++ (d.getD ""))
                     else st.newArtifactContent ++ (d.getD ""))
                 else c)
             ++ [rwSnapOf meta (A.contents.length + 1)
                   (resolveRewriteLanguage pl meta prev)
                   (if meta.type == "code"
                     then removeCodeBlockFormatting (st.newArtifactContent ++ (d.getD ""))
                     else st.newArtifactContent ++ (d.getD ""))]⟩
           toasts := st.toasts }
        rfl rfl
        ⟨_, _, rfl, by rw [List.length_map]; exact hB, rwSnapOf_index meta _ _ _⟩
    refine ⟨st2, ?_, hi2, hf2, hshape⟩
    rw [show rwBranchRun (some A) prev pl meta st (d :: t)
        = (match rwHandle (some A) prev pl meta st d with
            | .next stN => rwBranchRun (some A) prev pl meta stN t
            | .abortAll stN => (stN, t)) from rfl, hstep]
    exact hrun

/-- Claim C5: over the rewriteArtifact branch, the reserved index is the
pre-fold contents length plus one (computed once up front on lines 137-139
from the frozen closure artifact, and by the in-handler fallback on lines
419-421 otherwise, which yields the same value); every delta of the fold
writes to that same index, and after any positive number of deltas the
artifact holds exactly one snapshot beyond the pre-fold contents, carrying
the reserved index, with every frame consumed. -/
theorem C5_single_new_snapshot (A : ArtifactV3) (prevCurrentContent : Option ArtifactContentV3)
    (portLanguage : Option String) (meta : RewriteArtifactMetaToolResponse)
    (d : Option String) (ds : List (Option String)) :
    ∃ st2, rwBranchRun (some A) prevCurrentContent portLanguage meta
        (initRwFoldState (some A)) (d :: ds) = (st2, []) ∧
      st2.newArtifactIndex = some (A.contents.length + 1) ∧
      ∃ B snap, st2.liveArtifact = some ⟨A.contents.length + 1, B ++ [snap]⟩ ∧
        B.length = A.contents.length ∧ snap.index = A.contents.length + 1 := by
  have hstep : rwHandle (some A) prevCurrentContent portLanguage meta
        (initRwFoldState (some A)) d
      = .next { newArtifactContent := "" ++ (d.getD "")
                isFirstUpdate := false
                newArtifactIndex := some (A.contents.length + 1)
                liveArtifact := some ⟨A.contents.length + 1,
                  A.contents ++ [rwSnapOf meta (A.contents.length + 1)
                    (resolveRewriteLanguage portLanguage meta prevCurrentContent)
                    (if meta.type == "code"
                      then removeCodeBlockFormatting ("" ++ (d.getD ""))
                      else "" ++ (d.getD ""))]⟩
                toasts := [] } := rfl
  obtain ⟨st2, hrun, hi2, hf2, hshape⟩ :=
    rwBranchRun_preserves A prevCurrentContent portLanguage meta ds
      { newArtifactContent := "" ++ (d.getD "")
        isFirstUpdate := false
        newArtifactIndex := some (A.contents.length + 1)
        liveArtifact := some ⟨A.contents.length + 1,
          A.contents ++ [rwSnapOf meta (A.contents.length + 1)
            (resolveRewriteLanguage portLanguage meta prevCurrentContent)
            (if meta.type == "code"
              then removeCodeBlockFormatting ("" ++ (d.getD ""))
              else "" ++ (d.getD ""))]⟩
        toasts := [] }
      rfl rfl
      ⟨A.contents, rwSnapOf meta (A.contents.length + 1)
          (resolveRewriteLanguage portLanguage meta prevCurrentContent)
          (if meta.type == "code"
            then removeCodeBlockFormatting ("" ++ (d.getD ""))
            else "" ++ (d.getD "")),
        rfl, rfl, rwSnapOf_index meta _ _ _⟩
  refine ⟨st2, ?_, hi2, hshape⟩
  rw [show rwBranchRun (some A) prevCurrentContent portLanguage meta
        (initRwFoldState (some A)) (d :: ds)
      = (match rwHandle (some A) prevCurrentContent portLanguage meta
            (initRwFoldState (some A)) d with
          | .next stN => rwBranchRun (some A) prevCurrentContent portLanguage meta stN ds
          | .abortAll stN => (stN, ds)) from rfl, hstep]
  exact hrun

/-- Claim C7: the language of a rewrite delta is resolved with precedence
explicit request override first, then the captured metadata language when
the declared type is code (and a language is declared), then the previous
snapshot title, then the generic fallback "other". -/
theorem C7_language_precedence (portLanguage : Option String)
    (meta : RewriteArtifactMetaToolResponse) (prevCurrentContent : Option ArtifactContentV3) :
    (jsTruthyOpt portLanguage = true →
        resolveRewriteLanguage portLanguage meta prevCurrentContent = portLanguage.getD "") ∧
    (jsTruthyOpt portLanguage = false → meta.type = "code" →
        jsTruthyOpt meta.programmingLanguage = true →
        resolveRewriteLanguage portLanguage meta prevCurrentContent
          = (meta.programmingLanguage).getD "") ∧
    (∀ c, jsTruthyOpt portLanguage = false →
        ¬(meta.type = "code" ∧ jsTruthyOpt meta.programmingLanguage = true) →
        prevCurrentContent = some c →
        resolveRewriteLanguage portLanguage meta prevCurrentContent = c.title) ∧
    (jsTruthyOpt portLanguage = false →
        ¬(meta.type = "code" ∧ jsTruthyOpt meta.programmingLanguage = true) →
        prevCurrentContent = none →
        resolveRewriteLanguage portLanguage meta prevCurrentContent = "other") := by
  have hcond : ∀ (h : ¬(meta.type = "code" ∧ jsTruthyOpt meta.programmingLanguage = true)),
      (meta.type == "code" && jsTruthyOpt meta.programmingLanguage) = false := by
    intro h
    by_cases ht : meta.type = "code"
    · have hp : jsTruthyOpt meta.programmingLanguage = false := by
        cases hb : jsTruthyOpt meta.programmingLanguage with
        | true => exact absurd ⟨ht, hb⟩ h
        | false => rfl
      rw [hp, Bool.and_false]
    · rw [show ((meta.type == "code") = false) from beq_eq_false_iff_ne.mpr ht, Bool.false_and]
  refine ⟨?_, ?_, ?_, ?_⟩
  · intro h
    cases portLanguage with
    | none => simp [jsTruthyOpt] at h
    | some l => simp [resolveRewriteLanguage, h]
  · intro h ht hp
    simp [resolveRewriteLanguage, h, beq_iff_eq.mpr ht, hp]
  · intro c h hnc hprev
    subst hprev
    simp [resolveRewriteLanguage, h, hcond hnc]
  · intro h hnc hprev
    subst hprev
    simp [resolveRewriteLanguage, h, hcond hnc]

/-- Witness for the claim C7 theorem: an explicit override wins, and with
neither override nor declared code language the previous title is used. -/
theorem C7_witness :
    resolveRewriteLanguage (some "python") ⟨"code", "T", some "cpp"⟩ none = "python" ∧
    resolveRewriteLanguage none ⟨"text", "T", none⟩
        (some (.code ⟨1, "java", "java", "x"⟩)) = "java" :=
  ⟨(C7_language_precedence (some "python") ⟨"code", "T", some "cpp"⟩ none).1 (by decide),
    (C7_language_precedence none ⟨"text", "T", none⟩
        (some (.code ⟨1, "java", "java", "x"⟩))).2.2.1
      (.code ⟨1, "java", "java", "x"⟩) (by decide) (by decide) rfl⟩

/-- Claim C8 counterexample: a persisted message that already carries the
langsmith_tool_ui annotation and also carries the shared-run URL in its
response metadata gains a second copy of the annotation: the reconciler
never checks for an existing one. -/
theorem C8_counterexample :
    ((reconcileMessage ⟨"1", "hi", some "https://smith.langchain.com/public/abc/r",
        [⟨"langsmith_tool_ui", some "u", some "x"⟩]⟩).toolCalls.countP
      (fun tc => tc.name == "langsmith_tool_ui") = 2) ∧
    ((⟨"1", "hi", some "https://smith.langchain.com/public/abc/r",
        [⟨"langsmith_tool_ui", some "u", some "x"⟩]⟩ : StoredMessage).toolCalls.countP
      (fun tc => tc.name == "langsmith_tool_ui") = 1) :=
  ⟨by decide, by decide⟩

/-- Claim C8 (amended): on a session switch the reconciler appends the
synthesized annotation to every message whose response metadata carries a
truthy shared-run URL, whether or not the message already carries the
annotation (so duplicates are possible), leaving all other fields intact;
messages without such a URL are returned unchanged. -/
theorem C8_reconcile (msg : StoredMessage) :
    (msg.langSmithRunURL = none → reconcileMessage msg = msg) ∧
    (msg.langSmithRunURL = some "" → reconcileMessage msg = msg) ∧
    (∀ url, msg.langSmithRunURL = some url → url ≠ "" →
        reconcileMessage msg
          = { msg with toolCalls := msg.toolCalls ++ [mkLangsmithToolCall url] }) := by
  refine ⟨?_, ?_, ?_⟩
  · intro h
    simp [reconcileMessage, h]
  · intro h
    simp [reconcileMessage, h, show ("".isEmpty) = true from rfl]
  · intro url h hne
    have hemp : url.isEmpty = false := by
      cases hb : url.isEmpty with
      | true => exact absurd ((String.isEmpty_iff url).mp hb) hne
      | false => rfl
    simp [reconcileMessage, h, hemp]

/-- Witness for the amended claim C8 theorem at a concrete message. -/
theorem C8_witness :
    reconcileMessage ⟨"1", "hi", some "https://smith.langchain.com/public/abc/r", []⟩
      = { (⟨"1", "hi", some "https://smith.langchain.com/public/abc/r", []⟩ : StoredMessage)
          with toolCalls :=
            [] ++ [mkLangsmithToolCall "https://smith.langchain.com/public/abc/r"] } :=
  (C8_reconcile ⟨"1", "hi", some "https://smith.langchain.com/public/abc/r", []⟩).2.2
    "https://smith.langchain.com/public/abc/r" rfl (by decide)

/-- Claim C9: setArtifactContent with no artifact leaves the state
unchanged and reports an error; with an artifact it raises no error,
repoints currentIndex to the given index, keeps the number of snapshots,
rewrites exactly the snapshots matching both the index and the code type
(swapping in the cleaned content), leaves every other snapshot untouched,
and when no snapshot matches both conditions the contents are unchanged. -/
theorem C9_setArtifactContent (reverseCleanContent : String → String)
    (index : Nat) (content : String) :
    (setArtifactContent reverseCleanContent none index content
        = (none, some "No artifact found")) ∧
    (∀ a : ArtifactV3,
        (setArtifactContent reverseCleanContent (some a) index content).2 = none) ∧
    (∀ a a2, (setArtifactContent reverseCleanContent (some a) index content).1 = some a2 →
        a2.currentIndex = index ∧
        a2.contents.length = a.contents.length ∧
        (∀ i (h : i < a.contents.length) (h2 : i < a2.contents.length),
          ((a.contents[i].index = index ∧ isArtifactCodeContent (a.contents[i]) = true →
              a2.contents[i] = (a.contents[i]).withCode (reverseCleanContent content)) ∧
            (¬(a.contents[i].index = index ∧ isArtifactCodeContent (a.contents[i]) = true) →
              a2.contents[i] = a.contents[i]))) ∧
        ((∀ c ∈ a.contents, ¬(c.index = index ∧ isArtifactCodeContent c = true)) →
            a2.contents = a.contents)) := by
  have hsel : ∀ c : ArtifactContentV3,
      ¬(c.index = index ∧ isArtifactCodeContent c = true) →
      (if c.index == index && isArtifactCodeContent c then
          c.withCode (reverseCleanContent content) else c) = c := by
    intro c hc
    rw [if_neg]
    intro hcond
    rw [Bool.and_eq_true] at hcond
    exact hc ⟨beq_iff_eq.mp hcond.1, hcond.2⟩
  refine ⟨rfl, fun a => rfl, ?_⟩
  intro a a2 h
  have ha2 : a2 = { currentIndex := index,
                    contents := a.contents.map (fun c =>
                      if c.index == index && isArtifactCodeContent c then
                        c.withCode (reverseCleanContent content)
                      else c) } := by
    injection h with h2
    exact h2.symm
  subst ha2
  refine ⟨rfl, by simp, ?_, ?_⟩
  · intro i h h2
    constructor
    · intro hc
      simp only [List.getElem_map]
      rw [if_pos]
      rw [hc.1, hc.2]
      simp
    · intro hc
      simp only [List.getElem_map]
      exact hsel _ hc
  · intro hall
    have : a.contents.map (fun c =>
        if c.index == index && isArtifactCodeContent c then
          c.withCode (reverseCleanContent content)
        else c) = a.contents.map id := by
      apply List.map_congr_left
      intro c hc
      exact hsel c (hall c hc)
    rw [this, List.map_id]

/-- Witness for the claim C9 theorem: one code snapshot at the addressed
index gets its code replaced and currentIndex is repointed. -/
theorem C9_witness :
    ((setArtifactContent (fun s => s) (some ⟨5, [.code ⟨1, "t", "js", "old"⟩]⟩) 1 "new").1
        = some ⟨1, [.code ⟨1, "t", "js", "new"⟩]⟩) ∧
    (⟨1, [.code ⟨1, "t", "js", "new"⟩]⟩ : ArtifactV3).currentIndex = 1 := by
  refine ⟨by decide, ?_⟩
  exact ((C9_setArtifactContent (fun s => s) 1 "new").2.2
    ⟨5, [.code ⟨1, "t", "js", "old"⟩]⟩ ⟨1, [.code ⟨1, "t", "js", "new"⟩]⟩ (by decide)).1

/-- Claim C10: a falsy thread id, or a falsy assistant id, makes
streamMessageV2 toast the matching error and return undefined without
opening the stream and without touching the message list, the artifact or
the streaming flag. -/
theorem C10_entry_guard (threadId assistantId : Option String) (st : EngineState)
    (runFold : EngineState → StreamOutcome) :
    (jsTruthyOpt threadId = false →
        streamMessageV2Entry threadId assistantId st runFold
          = ⟨st, false, ["Thread ID not found"], none⟩) ∧
    (jsTruthyOpt threadId = true → jsTruthyOpt assistantId = false →
        streamMessageV2Entry threadId assistantId st runFold
          = ⟨st, false, ["Assistant ID not found"], none⟩) := by
  constructor
  · intro h
    simp [streamMessageV2Entry, h]
  · intro h h2
    simp [streamMessageV2Entry, h, h2]

/-- Witness for the claim C10 theorem: a missing thread id rejects the
fold outright. -/
theorem C10_witness :
    streamMessageV2Entry none (some "assistant") ⟨[], none, false⟩
        (fun s => ⟨s, true, [], some ()⟩)
      = ⟨⟨[], none, false⟩, false, ["Thread ID not found"], none⟩ :=
  (C10_entry_guard none (some "assistant") ⟨[], none, false⟩
    (fun s => ⟨s, true, [], some ()⟩)).1 rfl
